import Mathlib

/-!
Verification of the source-aggregation and generator-invocation pipeline of
the endless_sky_generator_web repository (`src/www/index.js`; the file
`src/www/export_to_rust.js` and the per-generator modules under
`src/www/generators/` contain the identical pipeline logic, so one
embedding covers both copies).

Modelling choices, all read off the JavaScript source:
* Network retrieval (`fetch`) is a function `Net : String → Option String`;
  `none` models a response with `response.ok` false, `some body` a
  successful response whose text is `body`.
* The module-level mutable bindings of `index.js` (`defaults_checked`,
  `default_paths`, `default_sources`, `loaded_paths`, `loaded_sources`)
  form an explicit `AppState` threaded through every handler.
* JavaScript array identity matters for one claim: the object returned by
  `getPathsAndSources` holds either the live `loaded_paths` array itself
  (when `include_defaults.checked` is false) or a fresh array produced by
  `Array.prototype.concat`.  `ArrayRef` records which of the two happened,
  and `readArray` dereferences such a reference against a later state.
* Each handler also returns the list of `Event`s it performed (network
  fetches, generator invocations, `console.error` calls, downloads), in
  order, so that temporal claims ("the manifest is fetched at most once",
  "no download is initiated") become statements about event traces.
-/

namespace EndlessSkyGen

/-- The module-level mutable state of `index.js`: the `defaults_checked`
latch, the cached baseline collection (`default_paths` / `default_sources`)
and the uploaded collection (`loaded_paths` / `loaded_sources`). -/
structure AppState where
  defaults_checked : Bool
  default_paths : List String
  default_sources : List String
  loaded_paths : List String
  loaded_sources : List String
  deriving DecidableEq

/-- The state at session start: latch unset, all four arrays empty. -/
def initialState : AppState :=
  { defaults_checked := false
    default_paths := []
    default_sources := []
    loaded_paths := []
    loaded_sources := [] }

/-- The network, as seen through `fetch`: `none` stands for a response
with `ok = false`, `some body` for a successful text response. -/
abbrev Net := String → Option String

/-- The manifest resource location, `"es_stable_data_paths.txt"`. -/
def manifestUrl : String := "es_stable_data_paths.txt"

/-- A file offered by the upload control: its `name`, declared media
`type`, and text contents (the result of `readFileAsText`). -/
structure UploadFile where
  name : String
  type : String
  text : String
  deriving DecidableEq

/-- `file.type.startsWith("text")`: whether the declared media type has
`"text"` as a prefix, computed on the character lists. -/
def typeIsText (ty : String) : Bool :=
  List.isPrefixOf "text".data ty.data

/-- The `change` handler of the upload input: for each file whose media
type starts with `"text"`, push its name onto `loaded_paths` and its text
onto `loaded_sources`; other files are skipped. -/
def inputChange (files : List UploadFile) (s : AppState) : AppState :=
  files.foldl
    (fun s f =>
      if typeIsText f.type then
        { s with
          loaded_paths := s.loaded_paths ++ [f.name]
          loaded_sources := s.loaded_sources ++ [f.text] }
      else s)
    s

/-- The `click` handler of the clear-uploads control:
`loaded_paths.splice(0, loaded_paths.length)` and likewise for
`loaded_sources`, i.e. both arrays are emptied in place. -/
def clearUploads (s : AppState) : AppState :=
  { s with loaded_paths := [], loaded_sources := [] }

/-- `body.split("\n")` on the character list of a JavaScript string:
split at every newline character, keeping empty segments (JavaScript
`split` with a one-character separator neither trims nor filters). -/
def splitNl : List Char → List (List Char)
  | [] => [[]]
  | c :: rest =>
    if c = '\n' then [] :: splitNl rest
    else
      match splitNl rest with
      | [] => [[c]]
      | l :: ls => (c :: l) :: ls

/-- The document locations listed by a manifest body: the body split on
newline characters, as `es_stable_data_paths[0].split("\n")` does. -/
def manifestLines (body : String) : List String :=
  (splitNl body.data).map String.mk

/-- The `for (const path of ...)` loop of `getPathsAndSources`: fetch each
listed location in order; on success push the location onto
`default_paths` and the body onto `default_sources`, on failure push
nothing.  Returns the updated state and the list of locations fetched. -/
def loadDefaultsLoop (net : Net) (lines : List String) (s : AppState) :
    AppState × List String :=
  match lines with
  | [] => (s, [])
  | path :: rest =>
    let s' :=
      match net path with
      | none => s
      | some src =>
        { s with
          default_paths := s.default_paths ++ [path]
          default_sources := s.default_sources ++ [src] }
    let (s'', tr) := loadDefaultsLoop net rest s'
    (s'', path :: tr)

/-- The guarded block at the top of `getPathsAndSources`: if the latch is
unset and the include-defaults box is checked, fetch the manifest; on
failure leave the state unchanged (the latch stays unset), on success
fetch every listed location and then set the latch.  Returns the updated
state and the list of locations fetched. -/
def ensureDefaults (net : Net) (includeDefaults : Bool) (s : AppState) :
    AppState × List String :=
  if !s.defaults_checked && includeDefaults then
    match net manifestUrl with
    | none => (s, [manifestUrl])
    | some body =>
      let (s', tr) := loadDefaultsLoop net (manifestLines body) s
      ({ s' with defaults_checked := true }, manifestUrl :: tr)
  else (s, [])

/-- The parallel identifier/content pair returned by
`getPathsAndSources`, by value. -/
structure PathsSources where
  paths : List String
  sources : List String
  deriving DecidableEq

/-- A reference to a JavaScript array as held by the object that
`getPathsAndSources` returns: either the live `loaded_paths` or
`loaded_sources` array of the module state, or a fresh array (produced by
`concat`) holding a fixed value. -/
inductive ArrayRef where
  | liveLoadedPaths
  | liveLoadedSources
  | fresh (v : List String)
  deriving DecidableEq

/-- Dereference an `ArrayRef` against the current module state. -/
def readArray (r : ArrayRef) (s : AppState) : List String :=
  match r with
  | .liveLoadedPaths => s.loaded_paths
  | .liveLoadedSources => s.loaded_sources
  | .fresh v => v

/-- `getPathsAndSources`, keeping JavaScript array identity: when
`include_defaults.checked` is true the returned object holds fresh arrays
built by `default_paths.concat(loaded_paths)` (and likewise for sources);
when it is false the returned object holds the live `loaded_paths` and
`loaded_sources` arrays themselves. -/
def getPathsAndSourcesRef (net : Net) (includeDefaults : Bool)
    (s : AppState) : AppState × (ArrayRef × ArrayRef) × List String :=
  let (s', tr) := ensureDefaults net includeDefaults s
  (s',
   (if includeDefaults then .fresh (s'.default_paths ++ s'.loaded_paths)
    else .liveLoadedPaths,
    if includeDefaults then .fresh (s'.default_sources ++ s'.loaded_sources)
    else .liveLoadedSources),
   tr)

/-- `getPathsAndSources`, by value: the state after the lazy baseline
load, the identifier/content pair as observed at the moment of return,
and the list of locations fetched during the call. -/
def getPathsAndSources (net : Net) (includeDefaults : Bool)
    (s : AppState) : AppState × PathsSources × List String :=
  let (s', tr) := ensureDefaults net includeDefaults s
  (s',
   { paths :=
       if includeDefaults then s'.default_paths ++ s'.loaded_paths
       else s'.loaded_paths
     sources :=
       if includeDefaults then s'.default_sources ++ s'.loaded_sources
       else s'.loaded_sources },
   tr)

/-- An observable effect performed by a handler, in order: a network
fetch of a location, an invocation of an external generator routine with
the flattened parallel sequences, a `console.error` with a message, or an
initiated download (`downloadZip`) of a named artifact. -/
inductive Event where
  | fetch (url : String)
  | invoke (paths sources : List String)
  | consoleError (msg : String)
  | download (fileName : String)
  deriving DecidableEq

/-- Whether an event is an initiated download. -/
def Event.isDownload : Event → Bool
  | .download _ => true
  | _ => false

/-- Whether an event is a `console.error` report. -/
def Event.isConsoleError : Event → Bool
  | .consoleError _ => true
  | _ => false

/-- An external generator routine reached across the foreign-function
boundary: given the parallel path/source sequences it either returns a
byte payload or raises a failure signal carrying a value. -/
abbrev RustFn := List String → List String → Except String (List Nat)

/-- `generateAndDownload(fileName, rustFn)`: assemble the sources, call
the routine inside `try`/`catch`; a raised signal is logged with
`console.error` and the handler returns with no download, otherwise the
payload is handed to `downloadZip`. -/
def generateAndDownload (fileName : String) (rustFn : RustFn) (net : Net)
    (includeDefaults : Bool) (s : AppState) : AppState × List Event :=
  let (s', ps, tr) := getPathsAndSources net includeDefaults s
  match rustFn ps.paths ps.sources with
  | .error e =>
    (s', tr.map Event.fetch ++ [.invoke ps.paths ps.sources, .consoleError e])
  | .ok _bytes =>
    (s', tr.map Event.fetch ++ [.invoke ps.paths ps.sources, .download fileName])

/-- The `SystemShufflerConfig` constructed from the form fields (all DOM
values are strings; the checkbox is a boolean). -/
structure SystemShufflerConfig where
  seed : String
  max_presets : String
  shuffle_chance : String
  fixed_shuffle_days : String
  shuffle_once_on_install : Bool
  deriving DecidableEq

/-- The system-shuffler form as the click handler reads it: for each
validated field its `checkValidity()` verdict, plus the raw values used
to build the config. -/
structure ShufflerForm where
  seed_valid : Bool
  max_presets_valid : Bool
  shuffle_chance_valid : Bool
  fixed_shuffle_days_valid : Bool
  seed : String
  max_presets : String
  shuffle_chance : String
  fixed_shuffle_days : String
  shuffle_once_on_install : Bool
  deriving DecidableEq

/-- The four `console.error` messages issued by the system-shuffler click
handler, one per field whose `checkValidity()` is false, in source
order.  No `if` is skipped: each field is checked regardless of the
verdicts before it. -/
def shufflerErrors (seedValid maxPresetsValid chanceValid daysValid : Bool) :
    List String :=
  (if !seedValid then
    ["ERROR: System Shuffler seed is not a valid value"] else []) ++
  (if !maxPresetsValid then
    ["ERROR: System Shuffler max presets is not a valid value"] else []) ++
  (if !chanceValid then
    ["ERROR: System Shuffler chance is not a valid value"] else []) ++
  (if !daysValid then
    ["ERROR: System Shuffler fixed shuffle days is not a valid value"] else [])

/-- The `errored` flag of the system-shuffler click handler: true exactly
when at least one `checkValidity()` failed. -/
def shufflerErrored (f : ShufflerForm) : Bool :=
  !f.seed_valid || !f.max_presets_valid ||
  !f.shuffle_chance_valid || !f.fixed_shuffle_days_valid

/-- A generator routine taking the shuffler config as third argument. -/
abbrev ShufflerFn :=
  List String → List String → SystemShufflerConfig → Except String (List Nat)

/-- The system-shuffler `click` handler: report every invalid field with
`console.error`; if any field was invalid return at once (before
`getPathsAndSources`); otherwise assemble the sources, invoke
`generate_system_shuffler` inside `try`/`catch`, and on success download
`system_shuffler.zip`. -/
def systemShufflerClick (f : ShufflerForm) (gen : ShufflerFn) (net : Net)
    (includeDefaults : Bool) (s : AppState) : AppState × List Event :=
  let errEvents :=
    (shufflerErrors f.seed_valid f.max_presets_valid
      f.shuffle_chance_valid f.fixed_shuffle_days_valid).map Event.consoleError
  if shufflerErrored f then (s, errEvents)
  else
    let (s', ps, tr) := getPathsAndSources net includeDefaults s
    let cfg : SystemShufflerConfig :=
      { seed := f.seed
        max_presets := f.max_presets
        shuffle_chance := f.shuffle_chance
        fixed_shuffle_days := f.fixed_shuffle_days
        shuffle_once_on_install := f.shuffle_once_on_install }
    match gen ps.paths ps.sources cfg with
    | .error e =>
      (s', errEvents ++ tr.map Event.fetch ++
        [.invoke ps.paths ps.sources, .consoleError e])
    | .ok _bytes =>
      (s', errEvents ++ tr.map Event.fetch ++
        [.invoke ps.paths ps.sources, .download "system_shuffler.zip"])

/-- The chaos form: the seed field's `checkValidity()` verdict and raw
value. -/
structure ChaosForm where
  seed_valid : Bool
  seed : String
  deriving DecidableEq

/-- A generator routine taking the chaos config (its seed) as third
argument. -/
abbrev ChaosFn :=
  List String → List String → String → Except String (List Nat)

/-- The chaos `click` handler: report an invalid seed with
`console.error` and return before `getPathsAndSources`; otherwise
assemble the sources, invoke `generate_chaos` inside `try`/`catch`, and
on success download `chaos.zip`. -/
def chaosClick (f : ChaosForm) (gen : ChaosFn) (net : Net)
    (includeDefaults : Bool) (s : AppState) : AppState × List Event :=
  let errEvents :=
    (if !f.seed_valid then
      ["ERROR: Chaos seed is not a valid value"] else []).map Event.consoleError
  if !f.seed_valid then (s, errEvents)
  else
    let (s', ps, tr) := getPathsAndSources net includeDefaults s
    match gen ps.paths ps.sources f.seed with
    | .error e =>
      (s', errEvents ++ tr.map Event.fetch ++
        [.invoke ps.paths ps.sources, .consoleError e])
    | .ok _bytes =>
      (s', errEvents ++ tr.map Event.fetch ++
        [.invoke ps.paths ps.sources, .download "chaos.zip"])

/-- A sequence of `getPathsAndSources` calls in one session, each with
its own network behaviour and include-defaults setting; returns the final
state and the fetch trace of each call. -/
def runCalls (calls : List (Net × Bool)) (s : AppState) :
    AppState × List (List String) :=
  match calls with
  | [] => (s, [])
  | (net, incl) :: rest =>
    let (s', _, tr) := getPathsAndSources net incl s
    let (s'', trs) := runCalls rest s'
    (s'', tr :: trs)

/-- The alignment invariant: in each of the two collections the
identifier sequence and the content sequence have equal length. -/
def aligned (s : AppState) : Prop :=
  s.default_paths.length = s.default_sources.length ∧
  s.loaded_paths.length = s.loaded_sources.length

/-- A network on which every retrieval fails. -/
def netNone : Net := fun _ => none

/-- A network whose manifest lists three documents of which the middle
one fails to fetch. -/
def netDocs : Net := fun u =>
  if u = manifestUrl then some "a\nb\nc"
  else if u = "a" then some "A"
  else if u = "c" then some "C"
  else none

/-- A network whose manifest body ends in a newline and on which the
empty location also resolves. -/
def netNl : Net := fun u =>
  if u = manifestUrl then some "doc\n"
  else if u = "doc" then some "D"
  else if u = "" then some "E"
  else none

/-! ### Helper lemmas -/

lemma splitNl_ne_nil (cs : List Char) : splitNl cs ≠ [] := by
  cases cs with
  | nil => simp [splitNl]
  | cons c rest =>
    by_cases h : c = '\n'
    · simp [splitNl, h]
    · simp only [splitNl, if_neg h]
      cases splitNl rest <;> simp

lemma splitNl_append_newline (cs : List Char) :
    splitNl (cs ++ ['\n']) = splitNl cs ++ [[]] := by
  induction cs with
  | nil => simp [splitNl]
  | cons c rest ih =>
    by_cases h : c = '\n'
    · simp [splitNl, h, ih]
    · have hne := splitNl_ne_nil rest
      cases hr : splitNl rest with
      | nil => exact absurd hr hne
      | cons l ls =>
        simp only [List.cons_append, splitNl, if_neg h, List.append_eq, ih, hr]

lemma loadDefaultsLoop_spec (net : Net) (lines : List String) :
    ∀ s : AppState,
      loadDefaultsLoop net lines s =
        ({ s with
            default_paths :=
              s.default_paths ++ lines.filter (fun p => (net p).isSome)
            default_sources :=
              s.default_sources ++ lines.filterMap net },
         lines) := by
  induction lines with
  | nil => intro s; simp [loadDefaultsLoop]
  | cons path rest ih =>
    intro s
    cases h : net path with
    | none =>
      simp [loadDefaultsLoop, h, ih, List.filter_cons, List.filterMap_cons]
    | some src =>
      simp [loadDefaultsLoop, h, ih, List.filter_cons, List.filterMap_cons]

lemma ensureDefaults_latched (net : Net) (incl : Bool) (s : AppState)
    (h : s.defaults_checked = true) : ensureDefaults net incl s = (s, []) := by
  simp [ensureDefaults, h]

lemma ensureDefaults_not_included (net : Net) (s : AppState) :
    ensureDefaults net false s = (s, []) := by
  simp [ensureDefaults]

lemma ensureDefaults_manifest_missing (net : Net) (s : AppState)
    (hlatch : s.defaults_checked = false) (hnet : net manifestUrl = none) :
    ensureDefaults net true s = (s, [manifestUrl]) := by
  simp [ensureDefaults, hlatch, hnet]

lemma ensureDefaults_manifest_ok (net : Net) (s : AppState) (body : String)
    (hlatch : s.defaults_checked = false)
    (hnet : net manifestUrl = some body) :
    ensureDefaults net true s =
      ({ s with
          defaults_checked := true
          default_paths :=
            s.default_paths ++
              (manifestLines body).filter (fun p => (net p).isSome)
          default_sources :=
            s.default_sources ++ (manifestLines body).filterMap net },
       manifestUrl :: manifestLines body) := by
  simp [ensureDefaults, hlatch, hnet, loadDefaultsLoop_spec]

lemma getPathsAndSources_latched (net : Net) (incl : Bool) (s : AppState)
    (h : s.defaults_checked = true) :
    getPathsAndSources net incl s =
      (s,
       { paths :=
           if incl then s.default_paths ++ s.loaded_paths
           else s.loaded_paths
         sources :=
           if incl then s.default_sources ++ s.loaded_sources
           else s.loaded_sources },
       []) := by
  simp [getPathsAndSources, ensureDefaults_latched net incl s h]

lemma getPathsAndSources_manifest_fetched (net : Net) (s : AppState)
    (h : s.defaults_checked = false) :
    manifestUrl ∈ (getPathsAndSources net true s).2.2 := by
  cases hnet : net manifestUrl with
  | none =>
    simp [getPathsAndSources, ensureDefaults_manifest_missing net s h hnet]
  | some body =>
    simp [getPathsAndSources, ensureDefaults_manifest_ok net s body h hnet]

lemma ensureDefaults_loaded_eq (net : Net) (incl : Bool) (s : AppState) :
    (ensureDefaults net incl s).1.loaded_paths = s.loaded_paths ∧
    (ensureDefaults net incl s).1.loaded_sources = s.loaded_sources := by
  unfold ensureDefaults
  by_cases h : (!s.defaults_checked && incl) = true
  · rw [if_pos h]
    cases hnet : net manifestUrl with
    | none => exact ⟨rfl, rfl⟩
    | some body => simp [loadDefaultsLoop_spec]
  · rw [if_neg h]
    exact ⟨rfl, rfl⟩

lemma runCalls_latched (calls : List (Net × Bool)) :
    ∀ s : AppState, s.defaults_checked = true →
      (runCalls calls s).1 = s ∧
      (runCalls calls s).2.all List.isEmpty = true := by
  induction calls with
  | nil => intro s _; exact ⟨rfl, rfl⟩
  | cons call rest ih =>
    intro s h
    obtain ⟨net, incl⟩ := call
    obtain ⟨h1, h2⟩ := ih s h
    simp [runCalls, getPathsAndSources_latched net incl s h, h1, h2]

lemma length_filterMap_net (net : Net) (l : List String) :
    (l.filterMap net).length = (l.filter (fun p => (net p).isSome)).length := by
  induction l with
  | nil => rfl
  | cons a t ih =>
    cases h : net a <;>
      simp [List.filterMap_cons, List.filter_cons, h, ih]

lemma ensureDefaults_aligned (net : Net) (incl : Bool) (s : AppState)
    (h : aligned s) : aligned (ensureDefaults net incl s).1 := by
  unfold ensureDefaults
  by_cases hg : (!s.defaults_checked && incl) = true
  · rw [if_pos hg]
    cases hnet : net manifestUrl with
    | none => exact h
    | some body =>
      simp only [loadDefaultsLoop_spec]
      refine ⟨?_, h.2⟩
      simp [h.1, length_filterMap_net]
  · rw [if_neg hg]
    exact h

lemma inputChange_aligned (files : List UploadFile) :
    ∀ s : AppState, aligned s → aligned (inputChange files s) := by
  induction files with
  | nil => intro s h; exact h
  | cons f rest ih =>
    intro s h
    by_cases ht : typeIsText f.type = true
    · simp only [inputChange, List.foldl_cons, if_pos ht]
      exact ih _ ⟨h.1, by simp [h.2]⟩
    · simp only [inputChange, List.foldl_cons, if_neg ht]
      exact ih _ h

/-! ### Claim theorems -/

/-- C1: for every baseline collection and every uploaded collection,
assembling the sources with baseline inclusion enabled returns the
baseline identifier/content entries followed by the uploaded entries, in
that relative order, with no entry dropped, reordered, or shadowed by a
duplicate identifier (the result is the plain concatenation of the two
collections, and the uploaded collection is untouched by the call). -/
theorem c1_assemble_baseline_first (net : Net) (s : AppState) :
    (getPathsAndSources net true s).2.1.paths =
      (getPathsAndSources net true s).1.default_paths ++
        (getPathsAndSources net true s).1.loaded_paths ∧
    (getPathsAndSources net true s).2.1.sources =
      (getPathsAndSources net true s).1.default_sources ++
        (getPathsAndSources net true s).1.loaded_sources ∧
    (getPathsAndSources net true s).1.loaded_paths = s.loaded_paths ∧
    (getPathsAndSources net true s).1.loaded_sources = s.loaded_sources := by
  obtain ⟨hp, hs⟩ := ensureDefaults_loaded_eq net true s
  exact ⟨rfl, rfl, hp, hs⟩

/-- C2, counterexample: with baseline inclusion disabled the object
returned by `getPathsAndSources` holds the live `loaded_paths` array, so
a subsequent clear empties the previously returned snapshot: after
uploading `a.txt` the snapshot reads `["a.txt"]`, but after the clear the
same snapshot reads `[]` — it is not left unchanged. -/
theorem c2_counterexample :
    (let s1 := inputChange [⟨"a.txt", "text/plain", "X"⟩] initialState
     let r := getPathsAndSourcesRef netNone false s1
     readArray r.2.1.1 r.1 = ["a.txt"] ∧
     readArray r.2.1.1 (clearUploads r.1) = []) := by
  exact ⟨by decide, by decide⟩

/-- C2, amended: a snapshot taken with baseline inclusion disabled is a
live view of the uploaded collection (the handler returns the
`loaded_paths` / `loaded_sources` arrays themselves), so a subsequent
clear also empties the previously returned snapshot; a snapshot taken
with baseline inclusion enabled is a fresh concatenation, which a
subsequent clear leaves unchanged. -/
theorem c2_snapshot_live_vs_copy (net : Net) (s : AppState) :
    ((getPathsAndSourcesRef net false s).2.1.1 = ArrayRef.liveLoadedPaths ∧
     (getPathsAndSourcesRef net false s).2.1.2 = ArrayRef.liveLoadedSources ∧
     readArray (getPathsAndSourcesRef net false s).2.1.1
       (clearUploads (getPathsAndSourcesRef net false s).1) = [] ∧
     readArray (getPathsAndSourcesRef net false s).2.1.2
       (clearUploads (getPathsAndSourcesRef net false s).1) = []) ∧
    (readArray (getPathsAndSourcesRef net true s).2.1.1
        (clearUploads (getPathsAndSourcesRef net true s).1) =
      readArray (getPathsAndSourcesRef net true s).2.1.1
        (getPathsAndSourcesRef net true s).1 ∧
     readArray (getPathsAndSourcesRef net true s).2.1.2
        (clearUploads (getPathsAndSourcesRef net true s).1) =
      readArray (getPathsAndSourcesRef net true s).2.1.2
        (getPathsAndSourcesRef net true s).1) :=
  ⟨⟨rfl, rfl, rfl, rfl⟩, rfl, rfl⟩

/-- C3: if the manifest retrieval fails, the loader leaves the state
unchanged — the latch stays unset and the baseline stays empty, so the
assembled pair is just the uploaded collection — and a subsequent
invocation with baseline inclusion enabled fetches the manifest again. -/
theorem c3_manifest_missing_not_latched (net netLater : Net) (s : AppState)
    (hnet : net manifestUrl = none)
    (hlatch : s.defaults_checked = false)
    (hdp : s.default_paths = []) (hds : s.default_sources = []) :
    (getPathsAndSources net true s).1 = s ∧
    (getPathsAndSources net true s).2.1.paths = s.loaded_paths ∧
    (getPathsAndSources net true s).2.1.sources = s.loaded_sources ∧
    (getPathsAndSources net true s).2.2 = [manifestUrl] ∧
    manifestUrl ∈
      (getPathsAndSources netLater true (getPathsAndSources net true s).1).2.2 := by
  have he := ensureDefaults_manifest_missing net s hlatch hnet
  have h1 : (getPathsAndSources net true s).1 = s := by
    simp [getPathsAndSources, he]
  refine ⟨h1, ?_, ?_, ?_, ?_⟩
  · simp [getPathsAndSources, he, hdp]
  · simp [getPathsAndSources, he, hds]
  · simp [getPathsAndSources, he]
  · rw [h1]
    exact getPathsAndSources_manifest_fetched netLater s hlatch

/-- C3, witness: on a network where every retrieval fails, a fresh
session keeps its state, assembles only the uploads, fetches exactly the
manifest, and fetches the manifest again on the next invocation. -/
theorem c3_witness :
    (getPathsAndSources netNone true initialState).1 = initialState ∧
    (getPathsAndSources netNone true initialState).2.1.paths = [] ∧
    (getPathsAndSources netNone true initialState).2.1.sources = [] ∧
    (getPathsAndSources netNone true initialState).2.2 = [manifestUrl] ∧
    manifestUrl ∈
      (getPathsAndSources netNone true
        (getPathsAndSources netNone true initialState).1).2.2 :=
  c3_manifest_missing_not_latched netNone netNone initialState rfl rfl rfl rfl

/-- C4: once a call in which the manifest fetch succeeds has completed,
the latch is set, and any sequence of later calls — with any network
behaviour and any include-defaults settings — leaves the state untouched
and performs no network retrieval at all (every later fetch trace is
empty), so the manifest is never retrieved again and the cached baseline
is reused. -/
theorem c4_manifest_at_most_once (net : Net) (body : String) (s : AppState)
    (calls : List (Net × Bool))
    (hnet : net manifestUrl = some body) :
    (getPathsAndSources net true s).1.defaults_checked = true ∧
    (runCalls calls (getPathsAndSources net true s).1).1 =
      (getPathsAndSources net true s).1 ∧
    (runCalls calls (getPathsAndSources net true s).1).2.all
      List.isEmpty = true := by
  have hlatch : (getPathsAndSources net true s).1.defaults_checked = true := by
    cases hl : s.defaults_checked with
    | true =>
      simp only [getPathsAndSources_latched net true s hl]
      exact hl
    | false =>
      simp [getPathsAndSources, ensureDefaults_manifest_ok net s body hl hnet]
  obtain ⟨h1, h2⟩ := runCalls_latched calls _ hlatch
  exact ⟨hlatch, h1, h2⟩

/-- C4, witness: after a successful manifest fetch on `netDocs`, three
further calls (failing network, defaults off, and the original network)
change nothing and fetch nothing. -/
theorem c4_witness :
    (getPathsAndSources netDocs true initialState).1.defaults_checked = true ∧
    (runCalls [(netNone, true), (netNl, false), (netDocs, true)]
        (getPathsAndSources netDocs true initialState).1).1 =
      (getPathsAndSources netDocs true initialState).1 ∧
    (runCalls [(netNone, true), (netNl, false), (netDocs, true)]
        (getPathsAndSources netDocs true initialState).1).2.all
      List.isEmpty = true :=
  c4_manifest_at_most_once netDocs "a\nb\nc" initialState
    [(netNone, true), (netNl, false), (netDocs, true)] rfl

/-- C5: when the manifest is retrieved, every listed location is fetched
(the fetch trace is the manifest followed by all its lines in order),
the locations whose fetch succeeded are appended to the baseline in
manifest order with their bodies, failed locations are merely omitted,
and the latch is set regardless of how many fetches failed. -/
theorem c5_partial_load_keeps_successes (net : Net) (s : AppState)
    (body : String)
    (hlatch : s.defaults_checked = false)
    (hnet : net manifestUrl = some body) :
    (getPathsAndSources net true s).1.defaults_checked = true ∧
    (getPathsAndSources net true s).1.default_paths =
      s.default_paths ++
        (manifestLines body).filter (fun p => (net p).isSome) ∧
    (getPathsAndSources net true s).1.default_sources =
      s.default_sources ++ (manifestLines body).filterMap net ∧
    (getPathsAndSources net true s).2.2 =
      manifestUrl :: manifestLines body := by
  have he := ensureDefaults_manifest_ok net s body hlatch hnet
  refine ⟨?_, ?_, ?_, ?_⟩ <;> simp [getPathsAndSources, he]

/-- C5, witness: on `netDocs` the manifest lists `a`, `b`, `c`; `b`
fails to fetch, so the loaded baseline is `a`, `c` with bodies `A`, `C`,
all three locations were fetched after the manifest, and the latch is
set. -/
theorem c5_witness :
    (getPathsAndSources netDocs true initialState).1.defaults_checked = true ∧
    (getPathsAndSources netDocs true initialState).1.default_paths =
      ["a", "c"] ∧
    (getPathsAndSources netDocs true initialState).1.default_sources =
      ["A", "C"] ∧
    (getPathsAndSources netDocs true initialState).2.2 =
      [manifestUrl, "a", "b", "c"] := by
  have h := c5_partial_load_keeps_successes netDocs initialState "a\nb\nc"
    rfl rfl
  simpa [netDocs, manifestLines, manifestUrl, splitNl] using h

/-- C6: the system-shuffler validation checks all four fields without
short-circuiting: for every assignment of validity verdicts, the number
of reported field errors is exactly the number of invalid fields, never
fewer. -/
theorem c6_validation_no_short_circuit (a b c d : Bool) :
    (shufflerErrors a b c d).length =
      (cond a 0 1) + (cond b 0 1) + (cond c 0 1) + (cond d 0 1) := by
  cases a <;> cases b <;> cases c <;> cases d <;> rfl

/-- C7: a generation action with at least one invalid configuration
field aborts after reporting the errors: the module state is unchanged
and every emitted event is a `console.error` report — in particular no
generator invocation, no network fetch (so no lazy baseline load) and no
download happens; this holds for the system-shuffler handler and for the
chaos handler. -/
theorem c7_invalid_field_aborts (f : ShufflerForm) (gen : ShufflerFn)
    (cf : ChaosForm) (cgen : ChaosFn) (net : Net) (incl : Bool)
    (s : AppState)
    (hf : shufflerErrored f = true) (hcf : cf.seed_valid = false) :
    (systemShufflerClick f gen net incl s).1 = s ∧
    (systemShufflerClick f gen net incl s).2.all Event.isConsoleError = true ∧
    (chaosClick cf cgen net incl s).1 = s ∧
    (chaosClick cf cgen net incl s).2.all Event.isConsoleError = true := by
  refine ⟨?_, ?_, ?_, ?_⟩
  · simp [systemShufflerClick, hf]
  · simp [systemShufflerClick, hf, List.all_map, Function.comp,
      Event.isConsoleError]
  · simp [chaosClick, hcf]
  · simp [chaosClick, hcf, Event.isConsoleError]

/-- C7, witness: with an invalid shuffler seed and an invalid chaos
seed, both handlers leave the state alone and only report errors, even
though the supplied generators would succeed. -/
theorem c7_witness :
    (systemShufflerClick
        ⟨false, true, true, true, "", "", "", "", false⟩
        (fun _ _ _ => Except.ok []) netNone true initialState).1 =
      initialState ∧
    (systemShufflerClick
        ⟨false, true, true, true, "", "", "", "", false⟩
        (fun _ _ _ => Except.ok []) netNone true initialState).2.all
      Event.isConsoleError = true ∧
    (chaosClick ⟨false, ""⟩ (fun _ _ _ => Except.ok []) netNone true
        initialState).1 = initialState ∧
    (chaosClick ⟨false, ""⟩ (fun _ _ _ => Except.ok []) netNone true
        initialState).2.all Event.isConsoleError = true :=
  c7_invalid_field_aborts
    ⟨false, true, true, true, "", "", "", "", false⟩
    (fun _ _ _ => Except.ok []) ⟨false, ""⟩ (fun _ _ _ => Except.ok [])
    netNone true initialState rfl rfl

/-- C8: when the external generator routine raises a failure signal,
`generateAndDownload` catches it at the invocation boundary: the raised
value is logged with `console.error`, no download event is ever emitted
(so no artifact is delivered), and the handler returns normally rather
than propagating the fault. -/
theorem c8_invocation_failure_contained (fileName : String)
    (rustFn : RustFn) (net : Net) (incl : Bool) (s : AppState) (e : String)
    (hfail : rustFn (getPathsAndSources net incl s).2.1.paths
        (getPathsAndSources net incl s).2.1.sources = Except.error e) :
    (generateAndDownload fileName rustFn net incl s).2.all
      (fun ev => !ev.isDownload) = true ∧
    Event.consoleError e ∈ (generateAndDownload fileName rustFn net incl s).2 := by
  rcases hr : getPathsAndSources net incl s with ⟨s', ps, tr⟩
  rw [hr] at hfail
  constructor
  · simp [generateAndDownload, hr, hfail, List.all_map, Function.comp,
      Event.isDownload]
  · simp [generateAndDownload, hr, hfail]

/-- C8, witness: a generator that always raises `"boom"` yields a trace
with the logged signal and no download. -/
theorem c8_witness :
    (generateAndDownload "full_map.zip" (fun _ _ => Except.error "boom")
        netNone false initialState).2.all (fun ev => !ev.isDownload) = true ∧
    Event.consoleError "boom" ∈
      (generateAndDownload "full_map.zip" (fun _ _ => Except.error "boom")
        netNone false initialState).2 :=
  c8_invocation_failure_contained "full_map.zip"
    (fun _ _ => Except.error "boom") netNone false initialState "boom" rfl

/-- C9: every operation on the two collections — upload add, clear, and
the lazy baseline load — preserves the alignment invariant (identifier
sequence and content sequence of each collection have equal length), and
the assembled pair handed to a generator has paths and sources of equal
length, so `paths[i]` corresponds to `sources[i]` for every index. -/
theorem c9_collections_aligned (files : List UploadFile) (net : Net)
    (incl : Bool) (s : AppState) (h : aligned s) :
    aligned (inputChange files s) ∧
    aligned (clearUploads s) ∧
    aligned (getPathsAndSources net incl s).1 ∧
    (getPathsAndSources net incl s).2.1.paths.length =
      (getPathsAndSources net incl s).2.1.sources.length := by
  have hE := ensureDefaults_aligned net incl s h
  refine ⟨inputChange_aligned files s h, ⟨h.1, rfl⟩, hE, ?_⟩
  cases incl with
  | false => exact hE.2
  | true => simp [getPathsAndSources, List.length_append, hE.1, hE.2]

/-- C9, witness: a text upload plus a skipped binary upload, a clear,
and a baseline load over `netDocs` all keep the collections aligned, and
the assembled pair has equal lengths. -/
theorem c9_witness :
    aligned (inputChange
      [⟨"a.txt", "text/plain", "X"⟩, ⟨"img.png", "image/png", "B"⟩]
      initialState) ∧
    aligned (clearUploads initialState) ∧
    aligned (getPathsAndSources netDocs true initialState).1 ∧
    (getPathsAndSources netDocs true initialState).2.1.paths.length =
      (getPathsAndSources netDocs true initialState).2.1.sources.length :=
  c9_collections_aligned
    [⟨"a.txt", "text/plain", "X"⟩, ⟨"img.png", "image/png", "B"⟩]
    netDocs true initialState ⟨rfl, rfl⟩

/-- C10: the manifest body is split on newline characters with no
trimming and no filtering of blank lines, so whenever the body is empty
or ends in a newline the resulting empty-string line is itself treated
as a document location: it is fetched, and since its fetch succeeds it
is appended to the baseline collection together with its body. -/
theorem c10_blank_line_is_fetched (net : Net) (s : AppState)
    (body c : String)
    (hlatch : s.defaults_checked = false)
    (hnet : net manifestUrl = some body)
    (hbody : body = "" ∨ ∃ cs, body.data = cs ++ ['\n'])
    (hblank : net "" = some c) :
    "" ∈ (getPathsAndSources net true s).2.2 ∧
    "" ∈ (getPathsAndSources net true s).1.default_paths ∧
    c ∈ (getPathsAndSources net true s).1.default_sources := by
  have hmem : "" ∈ manifestLines body := by
    rcases hbody with h0 | ⟨cs, hcs⟩
    · subst h0; decide
    · unfold manifestLines
      rw [hcs, splitNl_append_newline]
      refine List.mem_map.mpr ⟨[], ?_, rfl⟩
      simp
  have he := ensureDefaults_manifest_ok net s body hlatch hnet
  have htr : (getPathsAndSources net true s).2.2 =
      manifestUrl :: manifestLines body := by
    simp [getPathsAndSources, he]
  have hdp : (getPathsAndSources net true s).1.default_paths =
      s.default_paths ++
        (manifestLines body).filter (fun p => (net p).isSome) := by
    simp [getPathsAndSources, he]
  have hds : (getPathsAndSources net true s).1.default_sources =
      s.default_sources ++ (manifestLines body).filterMap net := by
    simp [getPathsAndSources, he]
  refine ⟨?_, ?_, ?_⟩
  · rw [htr]
    exact List.mem_cons_of_mem _ hmem
  · rw [hdp]
    exact List.mem_append_right _
      (List.mem_filter.mpr ⟨hmem, by simp [hblank]⟩)
  · rw [hds]
    exact List.mem_append_right _
      (List.mem_filterMap.mpr ⟨"", hmem, hblank⟩)

/-- C10, witness: on `netNl` the manifest body is `"doc\n"`, so the
empty location is fetched after `doc` and lands in the baseline with its
body `E`. -/
theorem c10_witness :
    "" ∈ (getPathsAndSources netNl true initialState).2.2 ∧
    "" ∈ (getPathsAndSources netNl true initialState).1.default_paths ∧
    "E" ∈ (getPathsAndSources netNl true initialState).1.default_sources :=
  c10_blank_line_is_fetched netNl initialState "doc\n" "E" rfl rfl
    (Or.inr ⟨['d', 'o', 'c'], rfl⟩) rfl

end EndlessSkyGen
